/- Shallow embedding of the cuepyd library (src/cuepyd/__init__.py), a structured
   command-line invocation layer for the external cue binary.  Pure functions of
   the source are translated to Lean functions; Python exceptions are modelled as
   the error side of Except; byte strings are lists of Nat; the host signal table
   (the signal.Signals enum, an external collaborator) is a parameter of type
   Int -> Option String returning the str rendering of the enum member, none when
   the lookup raises ValueError.  Only the invocation-building part of Cmd.cmd is
   modelled (the subprocess launch itself is an external effect); the model
   returns the argument vector and the payload bytes handed to the child. -/
import Mathlib

namespace Cuepyd

/-- Byte sequence of the UTF-8 encoding of one character, as Python
str.encode() produces it. -/
def utf8EncodeCharNat (c : Char) : List Nat :=
  let n := c.toNat
  if n < 0x80 then [n]
  else if n < 0x800 then [0xC0 + n / 0x40, 0x80 + n % 0x40]
  else if n < 0x10000 then [0xE0 + n / 0x1000, 0x80 + n / 0x40 % 0x40, 0x80 + n % 0x40]
  else [0xF0 + n / 0x40000, 0x80 + n / 0x1000 % 0x40, 0x80 + n / 0x40 % 0x40, 0x80 + n % 0x40]

/-- Model of Python str.encode(): the UTF-8 bytes of a string. -/
def utf8Encode (s : String) : List Nat :=
  s.data.flatMap utf8EncodeCharNat

/-- Whether a byte is a UTF-8 continuation byte (0x80..0xBF). -/
def isContByte (b : Nat) : Bool := 0x80 ≤ b && b < 0xC0

/-- A character from a code point, provided the code point is valid
(not a surrogate, below 0x110000). -/
def charOfValid (n : Nat) : Option Char :=
  if n.isValidChar then some (Char.ofNat n) else Option.none

/-- Model of Python bytes.decode(): UTF-8 decoding, none on a malformed
sequence (Python raises UnicodeDecodeError there).  Overlong encodings are
accepted by this model; no claim depends on them. -/
def utf8DecodeChars : List Nat → Option (List Char)
  | [] => some []
  | b :: bs =>
    if b < 0x80 then
      match charOfValid b, utf8DecodeChars bs with
      | some c, some cs => some (c :: cs)
      | _, _ => Option.none
    else if 0xC0 ≤ b && b < 0xE0 then
      match bs with
      | b2 :: bs2 =>
        if isContByte b2 then
          match charOfValid ((b - 0xC0) * 0x40 + (b2 - 0x80)), utf8DecodeChars bs2 with
          | some c, some cs => some (c :: cs)
          | _, _ => Option.none
        else Option.none
      | [] => Option.none
    else if 0xE0 ≤ b && b < 0xF0 then
      match bs with
      | b2 :: b3 :: bs3 =>
        if isContByte b2 && isContByte b3 then
          match charOfValid ((b - 0xE0) * 0x1000 + (b2 - 0x80) * 0x40 + (b3 - 0x80)),
                utf8DecodeChars bs3 with
          | some c, some cs => some (c :: cs)
          | _, _ => Option.none
        else Option.none
      | _ => Option.none
    else if 0xF0 ≤ b && b < 0xF8 then
      match bs with
      | b2 :: b3 :: b4 :: bs4 =>
        if isContByte b2 && isContByte b3 && isContByte b4 then
          match charOfValid ((b - 0xF0) * 0x40000 + (b2 - 0x80) * 0x1000 +
                             (b3 - 0x80) * 0x40 + (b4 - 0x80)),
                utf8DecodeChars bs4 with
          | some c, some cs => some (c :: cs)
          | _, _ => Option.none
        else Option.none
      | _ => Option.none
    else Option.none

/-- Decode a byte list to a string when it is valid UTF-8. -/
def utf8Decode (bs : List Nat) : Option String :=
  (utf8DecodeChars bs).map List.asString

/-- Whether the first list is an initial segment of the second. -/
def leadMatches : List Char → List Char → Bool
  | [], _ => true
  | _ :: _, [] => false
  | a :: as, b :: bs => (a == b) && leadMatches as bs

/-- Whether sub occurs contiguously inside the second list. -/
def charsContain (sub : List Char) : List Char → Bool
  | [] => leadMatches sub []
  | c :: cs => leadMatches sub (c :: cs) || charsContain sub cs

/-- Whether sub occurs as a contiguous substring of s. -/
def strContainsB (s sub : String) : Bool := charsContain sub.data s.data

/-- Model of Python str.rstrip applied with the underscore character. -/
def pyRstripUnderscores (s : String) : String :=
  ((s.data.reverse.dropWhile (fun c => c == '_')).reverse).asString

/-- Model of Python str.replace turning each underscore into a hyphen. -/
def pyUnderscoresToHyphens (s : String) : String :=
  (s.data.map (fun c => if c == '_' then '-' else c)).asString

/-- The runtime type objects that occur as dataclass field annotations in the
source: bool, str, list[str], NoneType, and typing unions.  strOpt and
strListOpt below are the two unions the source declares. -/
inductive PyType where
  | bool
  | str
  | listStr
  | noneType
  | union (args : List PyType)

/-- Source: strOpt = typing.Optional[str], whose runtime args are
(str, NoneType). -/
def strOpt : PyType := .union [.str, .noneType]

/-- Source: strListOpt = typing.Optional[typing.Union[str, list[str]]], whose
runtime args are (str, list[str], NoneType). -/
def strListOpt : PyType := .union [.str, .listStr, .noneType]

mutual

/-- Rendering of a type object inside an f-string, approximating the Python
str() of the type (the typing module may display Optional for unions ending in
NoneType; only the fact that the declared type is named matters here). -/
def PyType.pyStr : PyType → String
  | .bool => "<class \x27bool\x27>"
  | .str => "<class \x27str\x27>"
  | .listStr => "list[str]"
  | .noneType => "<class \x27NoneType\x27>"
  | .union args => "typing.Union[" ++ String.intercalate ", " (PyType.pyStrList args) ++ "]"

/-- Renderings of a list of type objects. -/
def PyType.pyStrList : List PyType → List String
  | [] => []
  | t :: ts => t.pyStr :: PyType.pyStrList ts

end

/-- The runtime values that can be supplied for an option: the well-typed ones
(bool, str, list, None) plus int as a representative of any other runtime
type a caller could pass (Python dataclasses do not check annotations). -/
inductive Value where
  | bool (b : Bool)
  | str (s : String)
  | list (vs : List Value)
  | none
  | int (n : Int)

mutual

/-- Model of Python repr() on the values above. -/
def Value.pyRepr : Value → String
  | .bool true => "True"
  | .bool false => "False"
  | .str s => "\x27" ++ s ++ "\x27"
  | .list vs => "[" ++ String.intercalate ", " (Value.pyReprList vs) ++ "]"
  | .none => "None"
  | .int n => toString n

/-- Model of Python repr() on a list of values. -/
def Value.pyReprList : List Value → List String
  | [] => []
  | v :: vs => v.pyRepr :: Value.pyReprList vs

end

/-- Model of Python str() on the values above: a string renders as itself
inside an f-string, a list renders via repr of its elements. -/
def Value.pyStr : Value → String
  | .str s => s
  | v => v.pyRepr

/-- The Python exceptions this layer can raise while building an invocation
or rendering an error: ValueError with its message, a bare
NotImplementedError, and UnicodeDecodeError from bytes.decode(). -/
inductive PyErr where
  | valueError (msg : String)
  | notImplementedError
  | unicodeDecodeError
deriving DecidableEq, Repr

/-- A dataclass field descriptor: its name and its declared type annotation,
as dataclasses.fields exposes them. -/
structure Field where
  name : String
  type : PyType

/-- Source function _field_type.  For a union annotation the code tests
field.type.__args__[1] is None; the entries of __args__ are type objects
(for Optional[str] they are (str, NoneType)), and a type object is never the
value None, so the test is false for every union and the function raises
NotImplementedError; a non-union annotation is returned unchanged.  Note the
encoder below never calls this function. -/
def _field_type (field : Field) : Except PyErr PyType :=
  match field.type with
  | .union _ => .error .notImplementedError
  | t => .ok t

/-- Source function _field_name_flag: strip trailing underscores from the
field name, turn the remaining underscores into hyphens, and put the double
hyphen in front. -/
def _field_name_flag (field : Field) : String :=
  "--" ++ pyUnderscoresToHyphens (pyRstripUnderscores field.name)

/-- Model of subprocess.CompletedProcess: the outcome of one child process.
A negative returncode encodes termination by a signal. -/
structure CompletedProcess where
  args : List String
  returncode : Int
  stdout : List Nat
  stderr : List Nat
deriving DecidableEq, Repr

/-- The structured process-failure error of the source.  The dataclass takes
the process outcome as an InitVar plus the input bytes; __post_init__ copies
args, returncode, stdout and stderr into the remaining fields. -/
structure CalledProcessError where
  input : List Nat
  args : List String
  return_code : Int
  output : List Nat
  error : List Nat
deriving DecidableEq, Repr

/-- The field assignments performed by CalledProcessError.__post_init__. -/
def CalledProcessError.post_init (proc : CompletedProcess) (input : List Nat) :
    CalledProcessError :=
  { input := input, args := proc.args, return_code := proc.returncode,
    output := proc.stdout, error := proc.stderr }

/-- Dataclass construction of CalledProcessError: it runs __post_init__, whose
body only copies fields and has no failure path, so construction always
succeeds (the Except wrapper records that no exception is raised). -/
def CalledProcessError.construct (proc : CompletedProcess) (input : List Nat) :
    Except PyErr CalledProcessError :=
  .ok (CalledProcessError.post_init proc input)

/-- One optional labeled line of the __str__ rendering: the expression
(quote) if not bytes else f-string of label and decoded bytes (unquote) -
nothing when the byte string is empty (falsy), otherwise a newline, a tab,
the label, a colon, a tab and the decoded bytes; decoding can raise. -/
def CalledProcessError.streamLine (label : String) (bytes : List Nat) :
    Except PyErr String :=
  if bytes = [] then .ok ""
  else match utf8Decode bytes with
    | some s => .ok ("\n\t" ++ label ++ ":\t" ++ s)
    | Option.none => .error .unicodeDecodeError

/-- The local variable return_context of the source method
CalledProcessError.__str__, parameterised by the host signal table sig: with
a negative return code it renders the signal from the table (or the
unknown-signal text when the table raises), otherwise the non-zero exit
status. -/
def CalledProcessError.return_context (sig : Int → Option String)
    (e : CalledProcessError) : String :=
  if e.return_code < 0 then
    match sig (-e.return_code) with
    | some sname => "died with " ++ sname ++ "."
    | Option.none => "died with unknown signal " ++ toString (-e.return_code) ++ "."
  else "returned non-zero exit status " ++ toString e.return_code ++ "."

/-- Source method CalledProcessError.__str__: with return code 0 it raises
ValueError; otherwise it renders the main sentence followed by the three
stream lines, each appended only when the corresponding bytes are
non-empty. -/
def CalledProcessError.str (sig : Int → Option String) (e : CalledProcessError) :
    Except PyErr String :=
  if e.return_code = 0 then .error (.valueError "Invalid return code 0 for subprocess.")
  else
    match CalledProcessError.streamLine "input" e.input with
    | .error err => .error err
    | .ok ip =>
      match CalledProcessError.streamLine "error" e.error with
      | .error err => .error err
      | .ok ep =>
        match CalledProcessError.streamLine "output" e.output with
        | .error err => .error err
        | .ok op =>
          .ok ("Subprocess " ++ String.intercalate " " e.args ++ " " ++
               CalledProcessError.return_context sig e ++ ip ++ ep ++ op)

/-- What CalledProcessError.check can raise: the constructed error itself, or
an exception escaping from print(e) while rendering it. -/
inductive CheckErr where
  | raised (err : PyErr)
  | called (e : CalledProcessError)
deriving DecidableEq, Repr

/-- Source static method CalledProcessError.check: with return code 0 it does
nothing; otherwise it constructs the error, prints it (rendering the message,
which can itself raise), and raises a freshly constructed equal error. -/
def CalledProcessError.check (sig : Int → Option String) (proc : CompletedProcess)
    (input : List Nat) : Except CheckErr Unit :=
  if proc.returncode ≠ 0 then
    let e := CalledProcessError.post_init proc input
    match CalledProcessError.str sig e with
    | .error err => .error (.raised err)
    | .ok _ => .error (.called (CalledProcessError.post_init proc input))
  else .ok ()

/-- Token-rendering mode of a file descriptor (File.Mode in the source). -/
inductive File.Mode where
  | Input
  | Output
deriving DecidableEq, Repr

/-- Encoding tags (File.Encodings in the source); the enum values are the
strings json, yaml, txt, and None for UNSPECIFIED. -/
inductive File.Encodings where
  | JSON
  | YAMl
  | TEXT
  | UNSPECIFIED
deriving DecidableEq, Repr

/-- The enum value attribute: a string for the three concrete encodings and
None for UNSPECIFIED. -/
def File.Encodings.value : File.Encodings → Option String
  | .JSON => some "json"
  | .YAMl => some "yaml"
  | .TEXT => some "txt"
  | .UNSPECIFIED => Option.none

/-- Source method File.Encodings.to_args: a single prefix token built from the
enum value and a colon unless the encoding is UNSPECIFIED (its value is None
exactly when the member is UNSPECIFIED, so matching on the value coincides
with the inequality test of the source). -/
def File.Encodings.to_args (e : File.Encodings) : List String :=
  match e.value with
  | some v => [v ++ ":"]
  | Option.none => []

/-- Source dataclass File: a path plus an optional encoding tag. -/
structure File where
  path : String
  encoding : File.Encodings := .UNSPECIFIED
deriving DecidableEq, Repr

/-- Source class variable File.PATH_STDOUT. -/
def File.PATH_STDOUT : String := "-"

/-- Source method File.to_args: the encoding prefix tokens followed by the
path; in Output mode the tokens are joined into one, in Input mode they stay
separate. -/
def File.to_args (f : File) (mode : File.Mode) : List String :=
  let args := f.encoding.to_args ++ [f.path]
  if mode = File.Mode.Output then [String.join args] else args

/-- Source dataclass Stdin: a payload string plus an optional encoding tag;
its path class variable is the stdin sentinel. -/
structure Stdin where
  contents : String
  encoding : File.Encodings := .UNSPECIFIED
deriving DecidableEq, Repr

/-- Source class variable Stdin.path. -/
def Stdin.path : String := "-"

/-- Source method Stdin.encode: UTF-8 bytes of the contents. -/
def Stdin.encode (s : Stdin) : List Nat := utf8Encode s.contents

/-- Source method Stdin.to_args delegates to File.to_args with the Stdin
instance as self, so the class variable path and the encoding are used. -/
def Stdin.to_args (s : Stdin) (mode : File.Mode) : List String :=
  File.to_args { path := Stdin.path, encoding := s.encoding } mode

/-- A Stdin instance is a dataclass without a length or boolean method, so
Python truthiness on it is always true. -/
def Stdin.truthy (_ : Stdin) : Bool := true

/-- Source union FileStr = File | str | pathlib.Path; a Path renders via str()
exactly like a plain string, so both are the str constructor here. -/
inductive FileStr where
  | file (f : File)
  | str (s : String)
deriving DecidableEq, Repr

/-- Source union Files = FileStr | list[FileStr]. -/
inductive Files where
  | one (f : FileStr)
  | many (l : List FileStr)
deriving DecidableEq, Repr

/-- Python truthiness of a FileStr: a File dataclass is always truthy, a
string is truthy when non-empty. -/
def FileStr.truthy : FileStr → Bool
  | .file _ => true
  | .str s => !s.isEmpty

/-- Python truthiness of a Files value: a list is truthy when non-empty. -/
def Files.truthy : Files → Bool
  | .one f => f.truthy
  | .many l => !l.isEmpty

/-- Source union Input = Stdin | str. -/
inductive Input where
  | str (s : String)
  | stdin (s : Stdin)
deriving DecidableEq, Repr

/-- The payload expression input.encode() of Cmd.cmd: for a bare string the
UTF-8 bytes of the string, for a Stdin value its encode method. -/
def Input.encode : Input → List Nat
  | .str s => utf8Encode s
  | .stdin s => s.encode

mutual

/-- Source static method Cmd.Flags._Flag.value_to_args.  Control flow of the
source: first the conjunction (type is bool and the value is a bool) emits the
bare flag for a true value and nothing for a false one; then any non-None
value is inspected structurally - a string becomes one flag=value token, a
list is expanded elementwise with the declared type strOpt, and anything else
raises ValueError; a None value emits nothing.  The source comments that
incorrect types flow through the non-None branch. -/
def Cmd.Flags._Flag.value_to_args (flag : String) (type_ : PyType) (value : Value) :
    Except PyErr (List String) :=
  match type_, value with
  | .bool, .bool b => if b then .ok [flag] else .ok []
  | _, .none => .ok []
  | _, .str s => .ok [flag ++ "=" ++ s]
  | _, .list vs => Cmd.Flags._Flag.elems_to_args flag vs
  | t, v => .error (.valueError ("invalid: " ++ flag ++ ": " ++ t.pyStr ++ " = " ++ v.pyStr))

/-- The elementwise expansion of a list value: the source chains
value_to_args(flag, strOpt, v) over the elements; the generator is forced by
list(), so the first raising element aborts the whole encoding. -/
def Cmd.Flags._Flag.elems_to_args (flag : String) : List Value → Except PyErr (List String)
  | [] => .ok []
  | v :: vs =>
      match Cmd.Flags._Flag.value_to_args flag strOpt v with
      | .error err => .error err
      | .ok a =>
        match Cmd.Flags._Flag.elems_to_args flag vs with
        | .error err => .error err
        | .ok rest => .ok (a ++ rest)

end

/-- Source static method Cmd.Flags._Flag.field_to_args: derive the flag name,
take the raw declared type of the field (field.type directly, not
_field_type), and render the value. -/
def Cmd.Flags._Flag.field_to_args (field : Field) (value : Value) :
    Except PyErr (List String) :=
  let flag := _field_name_flag field
  let type_ := field.type
  Cmd.Flags._Flag.value_to_args flag type_ value

/-- Source method Cmd.Flags._Flag.to_args: zip the dataclass fields with the
attribute values in declaration order, render each pair with field_to_args and
concatenate; list() forces the chain, so the first raising field aborts. -/
def Cmd.Flags._Flag.to_args_fvs : List (Field × Value) → Except PyErr (List String)
  | [] => .ok []
  | (f, v) :: rest =>
      match Cmd.Flags._Flag.field_to_args f v with
      | .error err => .error err
      | .ok a =>
        match Cmd.Flags._Flag.to_args_fvs rest with
        | .error err => .error err
        | .ok b => .ok (a ++ b)

/-- Source dataclass Cmd.Flags.Global, fields in declaration order, every
field a bool defaulting to False. -/
structure Cmd.Flags.Global where
  all_errors : Value := .bool false
  ignore : Value := .bool false
  simplify : Value := .bool false
  strict : Value := .bool false
  trace : Value := .bool false
  verbose : Value := .bool false

/-- The dataclasses.fields view of a Global instance, in declaration order. -/
def Cmd.Flags.Global.fieldValues (g : Cmd.Flags.Global) : List (Field × Value) :=
  [(⟨"all_errors", .bool⟩, g.all_errors),
   (⟨"ignore", .bool⟩, g.ignore),
   (⟨"simplify", .bool⟩, g.simplify),
   (⟨"strict", .bool⟩, g.strict),
   (⟨"trace", .bool⟩, g.trace),
   (⟨"verbose", .bool⟩, g.verbose)]

/-- The inherited _Flag.to_args applied to a Global instance. -/
def Cmd.Flags.Global.to_args (g : Cmd.Flags.Global) : Except PyErr (List String) :=
  Cmd.Flags._Flag.to_args_fvs g.fieldValues

/-- Source dataclass Cmd.Flags.Eval, fields in declaration order with their
declared types and defaults. -/
structure Cmd.Flags.Eval where
  all : Value := .bool false
  concrete : Value := .bool false
  expression : Value := .none
  help : Value := .bool false
  inject : Value := .none
  list_ : Value := .bool false
  merge : Value := .bool false
  name : Value := .none
  out : Value := .none
  outfile : Value := .none
  package : Value := .none
  path : Value := .none
  proto_path : Value := .none
  schema : Value := .none
  show_attributes : Value := .bool false
  show_hidden : Value := .bool false
  show_optional : Value := .bool false
  with_context : Value := .bool false

/-- The dataclasses.fields view of an Eval instance, in declaration order. -/
def Cmd.Flags.Eval.fieldValues (e : Cmd.Flags.Eval) : List (Field × Value) :=
  [(⟨"all", .bool⟩, e.all),
   (⟨"concrete", .bool⟩, e.concrete),
   (⟨"expression", strListOpt⟩, e.expression),
   (⟨"help", .bool⟩, e.help),
   (⟨"inject", strListOpt⟩, e.inject),
   (⟨"list_", .bool⟩, e.list_),
   (⟨"merge", .bool⟩, e.merge),
   (⟨"name", strOpt⟩, e.name),
   (⟨"out", strOpt⟩, e.out),
   (⟨"outfile", strOpt⟩, e.outfile),
   (⟨"package", strOpt⟩, e.package),
   (⟨"path", strListOpt⟩, e.path),
   (⟨"proto_path", strListOpt⟩, e.proto_path),
   (⟨"schema", strOpt⟩, e.schema),
   (⟨"show_attributes", .bool⟩, e.show_attributes),
   (⟨"show_hidden", .bool⟩, e.show_hidden),
   (⟨"show_optional", .bool⟩, e.show_optional),
   (⟨"with_context", .bool⟩, e.with_context)]

/-- The inherited _Flag.to_args applied to an Eval instance. -/
def Cmd.Flags.Eval.to_args (e : Cmd.Flags.Eval) : Except PyErr (List String) :=
  Cmd.Flags._Flag.to_args_fvs e.fieldValues

/-- Source dataclass Cmd.Flags.Def, fields in declaration order. -/
structure Cmd.Flags.Def where
  expression : Value := .none
  help : Value := .bool false
  inject : Value := .none
  list_ : Value := .bool false
  merge : Value := .bool false
  name : Value := .none
  out : Value := .none
  outfile : Value := .none
  package : Value := .none
  path : Value := .none
  proto_path : Value := .none
  schema : Value := .none
  show_attributes : Value := .bool false
  with_context : Value := .bool false

/-- The dataclasses.fields view of a Def instance, in declaration order. -/
def Cmd.Flags.Def.fieldValues (d : Cmd.Flags.Def) : List (Field × Value) :=
  [(⟨"expression", strListOpt⟩, d.expression),
   (⟨"help", .bool⟩, d.help),
   (⟨"inject", strListOpt⟩, d.inject),
   (⟨"list_", .bool⟩, d.list_),
   (⟨"merge", .bool⟩, d.merge),
   (⟨"name", strOpt⟩, d.name),
   (⟨"out", strOpt⟩, d.out),
   (⟨"outfile", strOpt⟩, d.outfile),
   (⟨"package", strOpt⟩, d.package),
   (⟨"path", strListOpt⟩, d.path),
   (⟨"proto_path", strListOpt⟩, d.proto_path),
   (⟨"schema", strOpt⟩, d.schema),
   (⟨"show_attributes", .bool⟩, d.show_attributes),
   (⟨"with_context", .bool⟩, d.with_context)]

/-- The inherited _Flag.to_args applied to a Def instance. -/
def Cmd.Flags.Def.to_args (d : Cmd.Flags.Def) : Except PyErr (List String) :=
  Cmd.Flags._Flag.to_args_fvs d.fieldValues

/-- Source dataclass Cmd.Flags.Vet, fields in declaration order. -/
structure Cmd.Flags.Vet where
  concrete : Value := .bool false
  help : Value := .bool false
  inject : Value := .none
  list_ : Value := .bool false
  merge : Value := .bool false
  name : Value := .none
  package : Value := .none
  path : Value := .none
  proto_path : Value := .none
  schema : Value := .none
  with_context : Value := .bool false

/-- The dataclasses.fields view of a Vet instance, in declaration order. -/
def Cmd.Flags.Vet.fieldValues (v : Cmd.Flags.Vet) : List (Field × Value) :=
  [(⟨"concrete", .bool⟩, v.concrete),
   (⟨"help", .bool⟩, v.help),
   (⟨"inject", strListOpt⟩, v.inject),
   (⟨"list_", .bool⟩, v.list_),
   (⟨"merge", .bool⟩, v.merge),
   (⟨"name", strOpt⟩, v.name),
   (⟨"package", strOpt⟩, v.package),
   (⟨"path", strListOpt⟩, v.path),
   (⟨"proto_path", strListOpt⟩, v.proto_path),
   (⟨"schema", strOpt⟩, v.schema),
   (⟨"with_context", .bool⟩, v.with_context)]

/-- The inherited _Flag.to_args applied to a Vet instance. -/
def Cmd.Flags.Vet.to_args (v : Cmd.Flags.Vet) : Except PyErr (List String) :=
  Cmd.Flags._Flag.to_args_fvs v.fieldValues

/-- The command-specific flag sets a caller can hand to Cmd.cmd.  The source
annotation CommandFlags is the union of Eval and Vet, but Cmd.def_ passes a
Def instance at runtime and Python does not enforce annotations, so all three
are included. -/
inductive Cmd.Flags.CommandFlags where
  | eval (e : Cmd.Flags.Eval)
  | vet (v : Cmd.Flags.Vet)
  | def_ (d : Cmd.Flags.Def)

/-- Dispatch of the to_args method on whichever flag set was passed. -/
def Cmd.Flags.CommandFlags.to_args : Cmd.Flags.CommandFlags → Except PyErr (List String)
  | .eval e => e.to_args
  | .vet v => v.to_args
  | .def_ d => d.to_args

/-- Source static method Cmd.Flags.parse.  The body is
(quote) args = [] if not cmd else cmd.to_args();
return args + [] if not global_ else global_.to_args() (unquote).
The conditional expression binds looser than the concatenation, so the return
is (args + []) if not global_ else global_.to_args(): when a global flag set
is supplied (any dataclass instance is truthy), only its tokens are returned
and args is discarded.  cmd.to_args() has already run at that point, so an
encoding error in the command flags still raises first. -/
def Cmd.Flags.parse (cmd : Option Cmd.Flags.CommandFlags)
    (global_ : Option Cmd.Flags.Global) : Except PyErr (List String) :=
  match (match cmd with
         | Option.none => Except.ok []
         | some c => c.to_args) with
  | .error err => .error err
  | .ok args =>
    match global_ with
    | Option.none => .ok (args ++ [])
    | some g => g.to_args

/-- Source static method Cmd.parse_file: a File renders through its to_args
method, anything else (str or Path) through str(). -/
def Cmd.parse_file (file : FileStr) (mode : File.Mode) : List String :=
  match file with
  | .file f => f.to_args mode
  | .str s => [s]

/-- Source static method Cmd.parse_files: nothing for a falsy value (None, an
empty list, or an empty string); a list is flattened elementwise; a single
descriptor renders alone. -/
def Cmd.parse_files (files : Option Files) (mode : File.Mode) : List String :=
  match files with
  | some fs =>
    if fs.truthy then
      match fs with
      | .many l => l.flatMap (fun f => Cmd.parse_file f mode)
      | .one f => Cmd.parse_file f mode
    else []
  | Option.none => []

/-- The invocation Cmd.cmd hands to subprocess.run: the argument vector and
the bytes fed to the standard input of the child. -/
structure Invocation where
  argv : List String
  payload : List Nat
deriving DecidableEq, Repr

/-- The invocation-building part of the source static method Cmd.cmd (the
subprocess launch and the outcome check that follow are external effects over
this data).  The Python defaults are input = the empty string, and None for
files and both flag sets.  The argument vector is the binary and subcommand
names, the Input-mode file tokens, the input tokens - the stdin sentinel for
a bare string, else the Stdin descriptor tokens guarded by its (always true)
truthiness - and the Flags.parse tokens, whose encoding errors abort the
build; the payload is input.encode(). -/
def Cmd.cmd (cmd : String) (input : Input) (files : Option Files)
    (flags_cmd : Option Cmd.Flags.CommandFlags)
    (flags_global : Option Cmd.Flags.Global) : Except PyErr Invocation :=
  match Cmd.Flags.parse flags_cmd flags_global with
  | .error err => .error err
  | .ok opts =>
    .ok { argv := ["cue", cmd] ++ Cmd.parse_files files File.Mode.Input ++
                  (match input with
                   | Input.str _ => ["-"]
                   | Input.stdin s =>
                     if Stdin.truthy s then s.to_args File.Mode.Input else []) ++
                  opts,
          payload := Input.encode input }

/-- Spec-side file tokens, following the words of the claims: no tokens when
the file set is absent or empty, each element of a list rendered and
concatenated in order, a single descriptor rendered alone. -/
def fileTokensSpec : Option Files → List String
  | Option.none => []
  | some (.many l) => l.flatMap (fun f => Cmd.parse_file f File.Mode.Input)
  | some (.one (.file f)) => Cmd.parse_file (.file f) File.Mode.Input
  | some (.one (.str s)) => if s = "" then [] else [s]

/-- Spec-side input tokens: a literal stdin sentinel for a bare string,
otherwise the Input-mode tokens of the descriptor itself. -/
def inputTokensSpec : Input → List String
  | .str _ => ["-"]
  | .stdin s => s.to_args File.Mode.Input

/-- Spec-side payload: the UTF-8 encoding of whichever input value was
supplied. -/
def inputPayloadSpec : Input → List Nat
  | .str s => utf8Encode s
  | .stdin s => utf8Encode s.contents

/-- One appended stream line of the rendered error, as the claims word it:
empty exactly when the byte string is empty, otherwise its own labeled line
carrying the decoded bytes. -/
def labeledPart (label : String) (bytes : List Nat) (part : String) : Prop :=
  (bytes = [] ∧ part = "") ∨
  (bytes ≠ [] ∧ ∃ s, utf8Decode bytes = some s ∧ part = "\n\t" ++ label ++ ":\t" ++ s)

/-- Whether an Except outcome is the NotImplementedError exception. -/
def isNotImplErr {α : Type} : Except PyErr α → Bool
  | .error .notImplementedError => true
  | _ => false

end Cuepyd

namespace Cuepyd

theorem charsContain_nil (l : List Char) : charsContain [] l = true := by
  cases l <;> simp [charsContain, leadMatches]

theorem leadMatches_append (sub rest : List Char) : leadMatches sub (sub ++ rest) = true := by
  induction sub with
  | nil => rfl
  | cons a as ih => simp [leadMatches, ih]

theorem charsContain_cons (sub : List Char) (c : Char) (l : List Char)
    (h : charsContain sub l = true) : charsContain sub (c :: l) = true := by
  simp [charsContain, h]

theorem charsContain_append_left (pre sub l : List Char) (h : charsContain sub l = true) :
    charsContain sub (pre ++ l) = true := by
  induction pre with
  | nil => simpa using h
  | cons c cs ih => simpa [List.cons_append] using charsContain_cons sub c (cs ++ l) ih

theorem charsContain_self_append (sub rest : List Char) :
    charsContain sub (sub ++ rest) = true := by
  cases sub with
  | nil => exact charsContain_nil rest
  | cons a as =>
    have h := leadMatches_append (a :: as) rest
    simp only [List.cons_append] at h ⊢
    simp [charsContain, h]

theorem str_append_assoc (a b c : String) : a ++ b ++ c = a ++ (b ++ c) := by
  apply String.ext
  simp [String.data_append]

theorem str_empty_append (s : String) : "" ++ s = s := by
  cases s with
  | mk l => rfl

theorem strContains_middle (a b c : String) : strContainsB (a ++ (b ++ c)) b = true := by
  simp only [strContainsB, String.data_append]
  exact charsContain_append_left _ _ _ (charsContain_self_append _ _)

theorem strContainsB_of_eq (m pre sub post : String) (h : m = pre ++ (sub ++ post)) :
    strContainsB m sub = true := by
  subst h
  exact strContains_middle pre sub post

theorem elem_eq_false (a : Char) (l : List Char) (h : a ∉ l) : List.elem a l = false := by
  induction l with
  | nil => rfl
  | cons c cs ih =>
    have hne : ¬ a = c := fun he => h (he ▸ List.mem_cons_self c cs)
    have hb : (a == c) = false := by simp [hne]
    simp [List.elem, hb]
    intro hm
    exact h (List.mem_cons_of_mem c hm)

theorem streamLine_ok (label : String) (bytes : List Nat) (part : String)
    (h : CalledProcessError.streamLine label bytes = .ok part) :
    labeledPart label bytes part := by
  unfold CalledProcessError.streamLine at h
  by_cases hb : bytes = []
  · rw [if_pos hb] at h
    injection h with h
    exact Or.inl ⟨hb, h.symm⟩
  · rw [if_neg hb] at h
    cases hd : utf8Decode bytes with
    | none => rw [hd] at h; cases h
    | some s =>
      rw [hd] at h
      injection h with h
      exact Or.inr ⟨hb, s, hd, h.symm⟩

theorem str_ok_structure (sig : Int → Option String) (e : CalledProcessError) (msg : String)
    (hrc : ¬ e.return_code = 0)
    (h : CalledProcessError.str sig e = .ok msg) :
    ∃ ip ep op,
      msg = "Subprocess " ++ String.intercalate " " e.args ++ " " ++
            CalledProcessError.return_context sig e ++ ip ++ ep ++ op ∧
      labeledPart "input" e.input ip ∧
      labeledPart "error" e.error ep ∧
      labeledPart "output" e.output op := by
  unfold CalledProcessError.str at h
  rw [if_neg hrc] at h
  cases h1 : CalledProcessError.streamLine "input" e.input with
  | error err => rw [h1] at h; cases h
  | ok ip =>
    rw [h1] at h
    cases h2 : CalledProcessError.streamLine "error" e.error with
    | error err => rw [h2] at h; cases h
    | ok ep =>
      rw [h2] at h
      cases h3 : CalledProcessError.streamLine "output" e.output with
      | error err => rw [h3] at h; cases h
      | ok op =>
        rw [h3] at h
        injection h with h
        exact ⟨ip, ep, op, h.symm, streamLine_ok _ _ _ h1,
               streamLine_ok _ _ _ h2, streamLine_ok _ _ _ h3⟩

theorem parse_files_eq_spec (files : Option Files) :
    Cmd.parse_files files File.Mode.Input = fileTokensSpec files := by
  match files with
  | Option.none => rfl
  | some (.many l) =>
    cases l with
    | nil => rfl
    | cons f fs => rfl
  | some (.one (.file f)) => rfl
  | some (.one (.str s)) =>
    by_cases hs : s = ""
    · subst hs; rfl
    · have hemp : s.isEmpty = false := by
        rw [Bool.eq_false_iff]
        intro he
        exact hs ((String.isEmpty_iff s).mp he)
      simp [Cmd.parse_files, fileTokensSpec, Files.truthy, FileStr.truthy, hemp, hs,
            Cmd.parse_file]

theorem value_to_args_none (flag : String) (t : PyType) :
    Cmd.Flags._Flag.value_to_args flag t Value.none = .ok [] := by
  cases t <;> rfl

theorem value_to_args_str (flag : String) (t : PyType) (s : String) :
    Cmd.Flags._Flag.value_to_args flag t (Value.str s) = .ok [flag ++ "=" ++ s] := by
  cases t <;> rfl

theorem value_to_args_list (flag : String) (t : PyType) (vs : List Value) :
    Cmd.Flags._Flag.value_to_args flag t (Value.list vs) =
      Cmd.Flags._Flag.elems_to_args flag vs := by
  cases t <;> rfl

theorem value_to_args_int (flag : String) (t : PyType) (n : Int) :
    Cmd.Flags._Flag.value_to_args flag t (Value.int n) =
      .error (.valueError ("invalid: " ++ flag ++ ": " ++ t.pyStr ++ " = " ++ toString n)) := by
  cases t <;> rfl

theorem elems_to_args_map_str (flag : String) (ss : List String) :
    Cmd.Flags._Flag.elems_to_args flag (ss.map Value.str) =
      .ok (ss.map (fun s => flag ++ "=" ++ s)) := by
  induction ss with
  | nil => rfl
  | cons s ss ih => simp [Cmd.Flags._Flag.elems_to_args, value_to_args_str, ih]

mutual

theorem value_to_args_no_notimpl (flag : String) (type_ : PyType) (value : Value) :
    isNotImplErr (Cmd.Flags._Flag.value_to_args flag type_ value) = false := by
  match value with
  | .none => rw [value_to_args_none]; rfl
  | .str s => rw [value_to_args_str]; rfl
  | .int n => rw [value_to_args_int]; rfl
  | .bool b =>
    match type_ with
    | .bool => cases b <;> rfl
    | .str => rfl
    | .listStr => rfl
    | .noneType => rfl
    | .union args => rfl
  | .list vs =>
    rw [value_to_args_list]
    exact elems_to_args_no_notimpl flag vs

theorem elems_to_args_no_notimpl (flag : String) (vs : List Value) :
    isNotImplErr (Cmd.Flags._Flag.elems_to_args flag vs) = false := by
  match vs with
  | [] => rfl
  | v :: rest =>
    have h1 := value_to_args_no_notimpl flag strOpt v
    have h2 := elems_to_args_no_notimpl flag rest
    cases hv : Cmd.Flags._Flag.value_to_args flag strOpt v with
    | error err =>
      rw [hv] at h1
      simp [Cmd.Flags._Flag.elems_to_args, hv, h1]
    | ok a =>
      cases hr : Cmd.Flags._Flag.elems_to_args flag rest with
      | error err =>
        rw [hr] at h2
        simp [Cmd.Flags._Flag.elems_to_args, hv, hr, h2]
      | ok rest2 => simp [Cmd.Flags._Flag.elems_to_args, hv, hr, isNotImplErr]

end

end Cuepyd

namespace Cuepyd

/-- Claim C1 (code bug evidence).  The token-order contract demands that, when
both a command-specific flag set and a global flag set are supplied, the
built option tokens contain the command-specific tokens followed by the
global tokens.  Evaluating the code at the failing input shows otherwise:
each flag set encodes to its token alone, yet when both are supplied,
Cmd.Flags.parse returns only the global tokens and the whole built argument
vector of Cmd.cmd lacks the command-specific token, because the conditional
expression in the return of parse binds looser than the concatenation. -/
theorem c1_parse_drops_command_tokens :
    Cmd.Flags.parse (some (.eval { concrete := Value.bool true })) Option.none =
      .ok ["--concrete"] ∧
    Cmd.Flags.parse Option.none (some { all_errors := Value.bool true }) =
      .ok ["--all-errors"] ∧
    Cmd.Flags.parse (some (.eval { concrete := Value.bool true }))
      (some { all_errors := Value.bool true }) = .ok ["--all-errors"] ∧
    Cmd.cmd "eval" (Input.str "") Option.none
      (some (.eval { concrete := Value.bool true }))
      (some { all_errors := Value.bool true }) =
      .ok { argv := ["cue", "eval", "-", "--all-errors"], payload := [] } :=
  ⟨rfl, rfl, rfl, rfl⟩

/-- Claim C2 (counterexample).  The claim says every value whose runtime type
does not match the declared kind fails with the ValueError-equivalent and
produces no tokens; but a string supplied for an option declared bool flows
through the encoder and produces a flag=value token without any error. -/
theorem c2_counterexample :
    Cmd.Flags._Flag.field_to_args ⟨"concrete", PyType.bool⟩ (Value.str "oops") =
      .ok ["--concrete=oops"] :=
  rfl

/-- Claim C2 (amended).  Encoding rejects a mismatched value only when it is
none of None, string, list, or a boolean under a boolean declaration: an int
value always raises ValueError naming the flag, the declared type and the
offending value (at encode time, producing no tokens), and so does a boolean
under a non-boolean declaration; but a mismatched string (and likewise a
list) is not rejected and is encoded as if well typed. -/
theorem c2_amended (name : String) (t : PyType) :
    (∀ n : Int, Cmd.Flags._Flag.field_to_args ⟨name, t⟩ (Value.int n) =
       .error (.valueError ("invalid: " ++ _field_name_flag ⟨name, t⟩ ++ ": " ++
                            t.pyStr ++ " = " ++ toString n))) ∧
    (∀ b : Bool, Cmd.Flags._Flag.field_to_args ⟨name, strOpt⟩ (Value.bool b) =
       .error (.valueError ("invalid: " ++ _field_name_flag ⟨name, strOpt⟩ ++ ": " ++
                            strOpt.pyStr ++ " = " ++ (Value.bool b).pyStr))) ∧
    (∀ v : String, Cmd.Flags._Flag.field_to_args ⟨name, PyType.bool⟩ (Value.str v) =
       .ok [_field_name_flag ⟨name, PyType.bool⟩ ++ "=" ++ v]) := by
  refine ⟨fun n => value_to_args_int _ t n, fun b => ?_, fun v => rfl⟩
  cases b <;> rfl

/-- Claim C3 (counterexample).  Constructing the structured process-failure
error from an outcome with exit code 0 does not fail: the dataclass
construction (running __post_init__) succeeds and yields an error object
whose return code is 0. -/
theorem c3_counterexample :
    CalledProcessError.construct ⟨["cue", "eval"], 0, [], []⟩ [] =
      .ok { input := [], args := ["cue", "eval"], return_code := 0,
            output := [], error := [] } :=
  rfl

/-- Claim C3 (amended).  Construction of the error with exit code 0 succeeds;
the defensive guard lives in the string rendering instead: rendering any
error constructed from an outcome with exit code 0 raises
ValueError with the message Invalid return code 0 for subprocess, so no
rendered message ever describes a successful outcome. -/
theorem c3_amended (sig : Int → Option String) (proc : CompletedProcess) (input : List Nat)
    (e : CalledProcessError) (h0 : proc.returncode = 0)
    (hc : CalledProcessError.construct proc input = .ok e) :
    CalledProcessError.str sig e =
      .error (.valueError "Invalid return code 0 for subprocess.") := by
  have he : CalledProcessError.post_init proc input = e := by
    injection hc
  subst he
  have hrc : (CalledProcessError.post_init proc input).return_code = 0 := by
    simp [CalledProcessError.post_init, h0]
  unfold CalledProcessError.str
  rw [if_pos hrc]

/-- Claim C3 (witness for the amended theorem), at a concrete outcome with
exit code 0. -/
theorem c3_amended_witness :
    CalledProcessError.str (fun _ => Option.none)
      (CalledProcessError.post_init ⟨["cue", "eval"], 0, [], []⟩ []) =
      .error (.valueError "Invalid return code 0 for subprocess.") :=
  c3_amended (fun _ => Option.none) ⟨["cue", "eval"], 0, [], []⟩ []
    (CalledProcessError.post_init ⟨["cue", "eval"], 0, [], []⟩ []) rfl rfl

/-- Claim C4 (counterexample).  The claim says encoding an option whose
declared type is an unsupported optional-union shape fails with the
unimplemented error; but encoding the expression option, whose declared type
strListOpt is exactly such a shape (its second union member is list[str],
not NoneType), succeeds and produces tokens. -/
theorem c4_counterexample :
    Cmd.Flags._Flag.field_to_args ⟨"expression", strListOpt⟩
      (Value.list [Value.str "a[0]", Value.str "a[1]"]) =
      .ok ["--expression=a[0]", "--expression=a[1]"] :=
  rfl

/-- Claim C4 (amended).  The helper _field_type does fail with
NotImplementedError on the malformed optional-union shape, but the encoder
never invokes it: for every supplied value, encoding a field declared with
that shape never yields NotImplementedError (the malformed declaration is
silently ignored; values are handled structurally and only a value that is
not a bool, string, list or None raises ValueError). -/
theorem c4_amended (name : String) (v : Value) :
    isNotImplErr (Cmd.Flags._Flag.field_to_args ⟨name, strListOpt⟩ v) = false ∧
    _field_type ⟨name, strListOpt⟩ = .error PyErr.notImplementedError :=
  ⟨value_to_args_no_notimpl _ strListOpt v, rfl⟩

/-- Claim C5.  For every declared option: a boolean option with value true
encodes to exactly the one bare flag token and with false to nothing; a
string option encodes None to nothing and a string v to one flag=v token; a
list-of-string option with n elements encodes to exactly n flag=element
tokens preserving order; absent (None) options contribute no tokens for any
declared type. -/
theorem c5_option_value_encoding (name : String) :
    (Cmd.Flags._Flag.field_to_args ⟨name, PyType.bool⟩ (Value.bool true) =
       .ok [_field_name_flag ⟨name, PyType.bool⟩]) ∧
    (Cmd.Flags._Flag.field_to_args ⟨name, PyType.bool⟩ (Value.bool false) = .ok []) ∧
    (∀ t : PyType, Cmd.Flags._Flag.field_to_args ⟨name, t⟩ Value.none = .ok []) ∧
    (∀ v : String, Cmd.Flags._Flag.field_to_args ⟨name, strOpt⟩ (Value.str v) =
       .ok [_field_name_flag ⟨name, strOpt⟩ ++ "=" ++ v]) ∧
    (∀ ss : List String,
       Cmd.Flags._Flag.field_to_args ⟨name, strListOpt⟩ (Value.list (ss.map Value.str)) =
         .ok (ss.map (fun s => _field_name_flag ⟨name, strListOpt⟩ ++ "=" ++ s))) := by
  refine ⟨rfl, rfl, fun t => ?_, fun v => ?_, fun ss => ?_⟩
  · show Cmd.Flags._Flag.value_to_args (_field_name_flag ⟨name, t⟩) t Value.none = .ok []
    exact value_to_args_none _ t
  · show Cmd.Flags._Flag.value_to_args (_field_name_flag ⟨name, strOpt⟩) strOpt
      (Value.str v) = .ok [_field_name_flag ⟨name, strOpt⟩ ++ "=" ++ v]
    exact value_to_args_str _ _ v
  · show Cmd.Flags._Flag.value_to_args (_field_name_flag ⟨name, strListOpt⟩) strListOpt
      (Value.list (ss.map Value.str)) =
      .ok (ss.map (fun s => _field_name_flag ⟨name, strListOpt⟩ ++ "=" ++ s))
    rw [value_to_args_list]
    exact elems_to_args_map_str _ ss

/-- Claim C6.  Flag-name derivation is a pure function of the option
identifier alone (independent of the declared type): trailing underscores
are stripped, the remaining underscores become hyphens and the double hyphen
is prefixed; in particular expression, show_hidden and list_ derive their
expected flags, and no underscore ever survives into a derived flag. -/
theorem c6_flag_name_derivation :
    _field_name_flag ⟨"expression", strListOpt⟩ = "--expression" ∧
    _field_name_flag ⟨"show_hidden", PyType.bool⟩ = "--show-hidden" ∧
    _field_name_flag ⟨"list_", PyType.bool⟩ = "--list" ∧
    (∀ (n : String) (t1 t2 : PyType), _field_name_flag ⟨n, t1⟩ = _field_name_flag ⟨n, t2⟩) ∧
    (∀ f : Field, List.elem '_' (_field_name_flag f).data = false) := by
  refine ⟨rfl, rfl, rfl, fun n t1 t2 => rfl, fun f => ?_⟩
  apply elem_eq_false
  intro hmem
  rw [show _field_name_flag f =
        "--" ++ pyUnderscoresToHyphens (pyRstripUnderscores f.name) from rfl] at hmem
  rw [String.data_append] at hmem
  rcases List.mem_append.mp hmem with h | h
  · simp at h
  · rw [show (pyUnderscoresToHyphens (pyRstripUnderscores f.name)).data =
          (pyRstripUnderscores f.name).data.map
            (fun c => if c == '_' then '-' else c) from rfl] at h
    rcases List.mem_map.mp h with ⟨c, _, hgc⟩
    by_cases hcu : c = '_'
    · rw [hcu] at hgc
      simp at hgc
    · have hb : (c == '_') = false := by simp [hcu]
      rw [hb] at hgc
      simp at hgc
      exact hcu hgc

end Cuepyd

namespace Cuepyd

/-- Claim C7.  For every File with path p and an explicit encoding tag (one
whose enum value is a string v), Output-mode rendering yields the single
token of the prefix concatenated with the path, Input-mode rendering yields
the prefix and path as two separate tokens; with the tag unspecified the
prefix contributes no token at all, so rendering in either mode yields just
the path. -/
theorem c7_file_rendering :
    (∀ (p v : String) (e : File.Encodings), e.value = some v →
      File.to_args { path := p, encoding := e } File.Mode.Output = [v ++ ":" ++ p] ∧
      File.to_args { path := p, encoding := e } File.Mode.Input = [v ++ ":", p]) ∧
    (∀ p : String,
      File.Encodings.UNSPECIFIED.to_args = [] ∧
      File.to_args { path := p, encoding := .UNSPECIFIED } File.Mode.Input = [p] ∧
      File.to_args { path := p, encoding := .UNSPECIFIED } File.Mode.Output = [p]) := by
  constructor
  · intro p v e hv
    constructor
    · simp [File.to_args, File.Encodings.to_args, hv, String.join]
    · simp [File.to_args, File.Encodings.to_args, hv]
  · intro p
    refine ⟨rfl, rfl, ?_⟩
    show [String.join (File.Encodings.UNSPECIFIED.to_args ++ [p])] = [p]
    rw [show File.Encodings.UNSPECIFIED.to_args = [] from rfl]
    simp [String.join]

/-- Claim C7 (witness), at the concrete file of the spec examples. -/
theorem c7_file_rendering_witness :
    File.to_args { path := "a.json", encoding := .JSON } File.Mode.Output = ["json:a.json"] ∧
    File.to_args { path := "a.json", encoding := .JSON } File.Mode.Input =
      ["json:", "a.json"] ∧
    File.to_args { path := "a.json", encoding := .UNSPECIFIED } File.Mode.Input =
      ["a.json"] :=
  ⟨(c7_file_rendering.1 "a.json" "json" .JSON rfl).1,
   (c7_file_rendering.1 "a.json" "json" .JSON rfl).2,
   (c7_file_rendering.2 "a.json").2.1⟩

/-- Claim C8.  For every call of the Command Builder, the built argument
vector is, in order: the binary and subcommand names, then the Input-mode
file tokens flattened from the file set (none when it is absent or empty,
each element of a list rendered and concatenated in order), then the input
tokens (a literal stdin sentinel for a bare string, otherwise the Input-mode
tokens of the descriptor itself), then the option tokens produced by
Flags.parse; and the payload bytes handed to the process are the UTF-8
encoding of the supplied input value. -/
theorem c8_cmd_token_order (sub : String) (input : Input) (files : Option Files)
    (fc : Option Cmd.Flags.CommandFlags) (fg : Option Cmd.Flags.Global) :
    Cmd.cmd sub input files fc fg =
      (Cmd.Flags.parse fc fg).map (fun opts =>
        { argv := ["cue", sub] ++ fileTokensSpec files ++ inputTokensSpec input ++ opts,
          payload := inputPayloadSpec input }) := by
  cases hp : Cmd.Flags.parse fc fg with
  | error err => simp [Cmd.cmd, hp, Except.map]
  | ok opts =>
    simp only [Cmd.cmd, hp, Except.map]
    cases input with
    | str s =>
      simp [parse_files_eq_spec, inputTokensSpec, inputPayloadSpec, Input.encode]
    | stdin st =>
      simp [parse_files_eq_spec, inputTokensSpec, inputPayloadSpec, Input.encode,
            Stdin.truthy, Stdin.encode]

/-- Claim C10.  With the default empty-string input, the built argument
vector still contains the literal stdin sentinel immediately after the file
tokens and before the option tokens, and the payload fed to the child is the
empty byte string. -/
theorem c10_default_empty_input (sub : String) (files : Option Files)
    (fc : Option Cmd.Flags.CommandFlags) (fg : Option Cmd.Flags.Global) :
    Cmd.cmd sub (Input.str "") files fc fg =
      (Cmd.Flags.parse fc fg).map (fun opts =>
        { argv := ["cue", sub] ++ Cmd.parse_files files File.Mode.Input ++ ["-"] ++ opts,
          payload := [] }) := by
  cases hp : Cmd.Flags.parse fc fg with
  | error err => simp [Cmd.cmd, hp, Except.map]
  | ok opts => simp [Cmd.cmd, hp, Except.map, Input.encode, utf8Encode]

end Cuepyd

namespace Cuepyd

/-- Claim C9.  The Outcome Classifier with exit code 0 never raises; with a
positive exit code it raises the constructed error, and the rendered message
contains the returned-non-zero-exit-status text with that code; with a
negative exit code the message contains the signal name the host table gives
for the negated code, or the unknown-signal text with that number when the
table has no entry; and the message consists of a base sentence followed by
the input, error and output parts, in that order, each present as its own
labeled line holding the decoded stream exactly when the stream is
non-empty. -/
theorem c9_outcome_classifier (sig : Int → Option String) (proc : CompletedProcess)
    (input : List Nat) :
    (proc.returncode = 0 → CalledProcessError.check sig proc input = .ok ()) ∧
    (∀ msg, CalledProcessError.str sig (CalledProcessError.post_init proc input) = .ok msg →
      (0 < proc.returncode →
        CalledProcessError.check sig proc input =
          .error (.called (CalledProcessError.post_init proc input)) ∧
        strContainsB msg ("returned non-zero exit status " ++ toString proc.returncode) =
          true) ∧
      (proc.returncode < 0 →
        (∀ sname, sig (-proc.returncode) = some sname → strContainsB msg sname = true) ∧
        (sig (-proc.returncode) = Option.none →
          strContainsB msg ("unknown signal " ++ toString (-proc.returncode)) = true)) ∧
      (¬ proc.returncode = 0 →
        ∃ base ip ep op,
          msg = base ++ ip ++ ep ++ op ∧
          labeledPart "input" input ip ∧
          labeledPart "error" proc.stderr ep ∧
          labeledPart "output" proc.stdout op)) := by
  constructor
  · intro h0
    unfold CalledProcessError.check
    rw [if_neg (not_not_intro h0)]
  · intro msg hmsg
    refine ⟨?_, ?_, ?_⟩
    · intro hpos
      have hz : ¬ proc.returncode = 0 := by omega
      have hcheck : CalledProcessError.check sig proc input =
          .error (.called (CalledProcessError.post_init proc input)) := by
        unfold CalledProcessError.check
        rw [if_pos hz]
        simp only [hmsg]
      refine ⟨hcheck, ?_⟩
      obtain ⟨ip, ep, op, hm, _, _, _⟩ :=
        str_ok_structure sig (CalledProcessError.post_init proc input) msg hz hmsg
      have hctx : CalledProcessError.return_context sig
          (CalledProcessError.post_init proc input) =
          "returned non-zero exit status " ++ toString proc.returncode ++ "." := by
        unfold CalledProcessError.return_context
        rw [if_neg (show ¬ (CalledProcessError.post_init proc input).return_code < 0 by
          simp only [CalledProcessError.post_init]
          omega)]
        simp only [CalledProcessError.post_init]
      refine strContainsB_of_eq msg
        ("Subprocess " ++
         String.intercalate " " (CalledProcessError.post_init proc input).args ++ " ")
        ("returned non-zero exit status " ++ toString proc.returncode)
        ("." ++ (ip ++ (ep ++ op))) ?_
      rw [hm, hctx]
      simp only [str_append_assoc]
    · intro hneg
      have hz : ¬ proc.returncode = 0 := by omega
      obtain ⟨ip, ep, op, hm, _, _, _⟩ :=
        str_ok_structure sig (CalledProcessError.post_init proc input) msg hz hmsg
      have hneg2 : (CalledProcessError.post_init proc input).return_code < 0 := by
        simp only [CalledProcessError.post_init]
        omega
      constructor
      · intro sname hs
        have hctx : CalledProcessError.return_context sig
            (CalledProcessError.post_init proc input) =
            "died with " ++ sname ++ "." := by
          unfold CalledProcessError.return_context
          rw [if_pos hneg2]
          simp only [CalledProcessError.post_init]
          rw [hs]
        refine strContainsB_of_eq msg
          ("Subprocess " ++
           String.intercalate " " (CalledProcessError.post_init proc input).args ++ " " ++
           "died with ")
          sname
          ("." ++ (ip ++ (ep ++ op))) ?_
        rw [hm, hctx]
        simp only [str_append_assoc]
      · intro hnone
        have hctx : CalledProcessError.return_context sig
            (CalledProcessError.post_init proc input) =
            "died with unknown signal " ++ toString (-proc.returncode) ++ "." := by
          unfold CalledProcessError.return_context
          rw [if_pos hneg2]
          simp only [CalledProcessError.post_init]
          rw [hnone]
        have hsplit : ("died with unknown signal " : String) =
            "died with " ++ "unknown signal " := rfl
        refine strContainsB_of_eq msg
          ("Subprocess " ++
           String.intercalate " " (CalledProcessError.post_init proc input).args ++ " " ++
           "died with ")
          ("unknown signal " ++ toString (-proc.returncode))
          ("." ++ (ip ++ (ep ++ op))) ?_
        rw [hm, hctx, hsplit]
        simp only [str_append_assoc]
    · intro hz
      obtain ⟨ip, ep, op, hm, hip, hep, hop⟩ :=
        str_ok_structure sig (CalledProcessError.post_init proc input) msg hz hmsg
      exact ⟨"Subprocess " ++
             String.intercalate " " (CalledProcessError.post_init proc input).args ++ " " ++
             CalledProcessError.return_context sig (CalledProcessError.post_init proc input),
             ip, ep, op, hm, hip, hep, hop⟩

/-- Claim C9 (witness): the classifier at concrete outcomes with exit codes
0, 2, -9 (known in the supplied table) and -7 (unknown in the empty
table). -/
theorem c9_outcome_classifier_witness :
    CalledProcessError.check (fun _ => Option.none) ⟨["cue"], 0, [], []⟩ [] = .ok () ∧
    strContainsB "Subprocess cue returned non-zero exit status 2.\n\terror:\tboom"
      ("returned non-zero exit status " ++ toString (2 : Int)) = true ∧
    strContainsB "Subprocess cue died with Signals.SIGKILL." "Signals.SIGKILL" = true ∧
    strContainsB "Subprocess cue died with unknown signal 7."
      ("unknown signal " ++ toString (7 : Int)) = true := by
  refine ⟨(c9_outcome_classifier (fun _ => Option.none) ⟨["cue"], 0, [], []⟩ []).1 rfl,
          ?_, ?_, ?_⟩
  · exact (((c9_outcome_classifier (fun _ => Option.none)
      ⟨["cue"], 2, [], utf8Encode "boom"⟩ []).2
      "Subprocess cue returned non-zero exit status 2.\n\terror:\tboom" (by rfl)).1
      (by decide)).2
  · exact (((c9_outcome_classifier
      (fun n => if n = 9 then some "Signals.SIGKILL" else Option.none)
      ⟨["cue"], -9, [], []⟩ []).2
      "Subprocess cue died with Signals.SIGKILL." (by rfl)).2.1
      (by decide)).1 "Signals.SIGKILL" (by rfl)
  · exact (((c9_outcome_classifier (fun _ => Option.none)
      ⟨["cue"], -7, [], []⟩ []).2
      "Subprocess cue died with unknown signal 7." (by rfl)).2.1
      (by decide)).2 rfl

end Cuepyd
